import Mathlib

/-!
Verification of serverless-mocha-plugin (src/index.js) against its
natural-language specification. JavaScript strings are embedded as `List Char`,
objects as association lists, `process.env` as an association list where more
recent writes shadow older ones, and fallible code returns `Option`/`Except`.
The helper module `utils.js` is not part of the sources; the definitions taken
from it are modelled from the specification and marked as such in their doc
comments.
-/

set_option autoImplicit false

namespace MochaPlugin

/-- JavaScript strings are embedded as lists of characters. -/
abbrev Str : Type := List Char

/-- First-match lookup in an association list keyed by strings; embeds
JavaScript property access `obj[key]` returning `undefined` as `none`. -/
def lookupStr {α : Type} : List (Str × α) → Str → Option α
  | [], _ => none
  | (k, v) :: rest, key => if k = key then some v else lookupStr rest key

/-- Insert-or-overwrite for an association list; embeds the JavaScript
assignment `obj[key] = v`, which overwrites an existing property in place and
otherwise appends a new one in insertion order. -/
def insertStr {α : Type} (l : List (Str × α)) (k : Str) (v : α) : List (Str × α) :=
  if (lookupStr l k).isSome then
    l.map fun p => if p.1 = k then (k, v) else p
  else l ++ [(k, v)]

/-- JavaScript `s.split(sep)` for a single-character separator: splits on every
occurrence of the separator, keeping empty chunks, and always returns at least
one chunk (in particular `"".split(sep)` is `[""]`, never `[]`). -/
def jsSplit : Str → Char → List Str
  | [], _ => [[]]
  | c :: rest, sep =>
    let r := jsSplit rest sep
    if c = sep then [] :: r else (c :: r.headD []) :: r.tail

/-- JavaScript `s.replace(/a/g, b)` for single characters. -/
def replaceChar (l : Str) (a b : Char) : Str :=
  l.map fun c => if c = a then b else c

/-- Option alternative without a thunk: the first operand when it is `some`,
the second otherwise. Used to state shadowing lookups. -/
def oor {α : Type} : Option α → Option α → Option α
  | some a, _ => some a
  | none, b => b

/-- The process-wide environment (`process.env`): a list of writes, the most
recent first; `getVar` sees the most recent write of a key. -/
abbrev Env : Type := List (Str × Str)

/-- Read of `process.env[k]`: the most recent write of `k` wins. -/
def getVar (env : Env) (k : Str) : Option Str :=
  lookupStr env k

/-- Modelled from the spec: `utils.setEnv` (utils.js is not among the sources).
Per section 4.3, the environment flattener "takes a flat string-keyed mapping
and writes each entry into process-wide environment state, overwriting any
existing value with the same key. No removal semantics". Each entry is written
in order; a write shadows all earlier writes of the same key. -/
def setEnv (env : Env) (vars : List (Str × Str)) : Env :=
  vars.foldl (fun e kv => kv :: e) env

/-- Value of the last write of key `k` in a flat mapping `vars`, i.e. the value
`k` ends up with after `setEnv` iterates the whole mapping. -/
def lastLookup (vars : List (Str × Str)) (k : Str) : Option Str :=
  lookupStr vars.reverse k

/-- Region-scoped environment variables of the host configuration. -/
structure RegionEnv : Type where
  vars : List (Str × Str)
deriving DecidableEq

/-- Stage-scoped environment variables and the stage region mapping. -/
structure StageEnv : Type where
  vars : List (Str × Str)
  regions : List (Str × RegionEnv)
deriving DecidableEq

/-- The host environment hierarchy `serverless.environment`: global `vars`
plus a `stages` mapping, each stage holding a `regions` mapping. -/
structure ServerlessEnv : Type where
  vars : List (Str × Str)
  stages : List (Str × StageEnv)
deriving DecidableEq

/-- The `--stage` and `--region` command-line options. -/
structure Options : Type where
  stage : Option Str
  region : Option Str
deriving DecidableEq

/-- Embeds `mochaPlugin.setEnvVars(funcName, options)` (src/index.js lines
233-243). The first argument is accepted but never read. When
`serverless.environment` is absent nothing is written; otherwise the global
`vars` are flattened, then, only when `options.stage` is set, the stage `vars`,
then, only when additionally `options.region` is set, the region `vars`.
Accessing a stage or region missing from the hierarchy is a JavaScript
`TypeError` (reading `.vars` of `undefined`), embedded as `none`. -/
def setEnvVars {α : Type} (func : α) (opts : Options)
    (environment : Option ServerlessEnv) (env : Env) : Option Env :=
  match environment with
  | none => some env
  | some e =>
    let env1 := setEnv env e.vars
    match opts.stage with
    | none => some env1
    | some stage =>
      match lookupStr e.stages stage with
      | none => none
      | some st =>
        let env2 := setEnv env1 st.vars
        match opts.region with
        | none => some env2
        | some region =>
          match lookupStr st.regions region with
          | none => none
          | some rg => some (setEnv env2 rg.vars)

/-- Modelled from the spec: `utils.getTestFilePath` (utils.js is not among the
sources). Per section 4.3 the path builder is a pure string function taking a
function name to its conventional test file path under the conventional test
directory; we fix the convention `test/<name>.js`. -/
def getTestFilePath (funcName : Str) : Str :=
  "test".toList ++ '/' :: (funcName ++ ".js".toList)

/-- Drop a trailing `.js` extension if present (basename extension stripping). -/
def stripJsExt (l : Str) : Str :=
  if l.drop (l.length - 3) = ".js".toList then l.take (l.length - 3) else l

/-- Modelled from the spec: `utils.funcNameFromPath` (utils.js is not among the
sources). Per section 4.3 it "inverts the path-builder convention to recover a
function name from a test file's path": the path segment after the last
directory separator, with the `.js` extension stripped. -/
def funcNameFromPath (p : Str) : Str :=
  stripJsExt ((jsSplit p '/').getLastD [])

/-- A host function declaration: `{ handler: "<module>.<method>" }`. -/
structure Func : Type where
  handler : Str
deriving DecidableEq

/-- A function declaration annotated with its discovered test file path, as
`utils.getTestFiles` attaches it under `mochaPlugin.testPath`. -/
structure FuncT : Type where
  handler : Str
  testPath : Str
deriving DecidableEq

/-- Modelled from the spec: `utils.getTestFiles` (utils.js is not among the
sources). Per section 4.3 the test-file discovery "for a mapping of function
name → declaration, returns only the subset whose conventional test file
exists on disk, each annotated with its resolved test file path". The file
system is embedded as an association list from path to content. -/
def getTestFiles (funcs : List (Str × Func)) (fsys : List (Str × Str)) :
    List (Str × FuncT) :=
  funcs.filterMap fun p =>
    let tp := getTestFilePath p.1
    match lookupStr fsys tp with
    | some _ => some (p.1, ⟨p.2.handler, tp⟩)
    | none => none

/-- The record passed to `ejs.render` in `createTest` (src/index.js lines
186-190). `handlerName` is `handlerParts[1]`, which is `undefined` (`none`)
when the handler string contains no dot. -/
structure TemplateContext : Type where
  functionName : Str
  functionPath : Str
  handlerName : Option Str
deriving DecidableEq

/-- Embeds the substitution-value computation of `createTest` (src/index.js
lines 169-171 and 186-190): split the handler on dots, append `.js` to the
first part and normalize backslashes to forward slashes for `functionPath`,
and take the second part as `handlerName`. -/
def templateContextOf (funcName handler : Str) : TemplateContext :=
  let handlerParts := jsSplit handler '.'
  { functionName := funcName
    functionPath := replaceChar (handlerParts.headD [] ++ ".js".toList) '\\' '/'
    handlerName := handlerParts[1]? }

/-- Outcome of the scaffold operation. -/
inductive CreateResult : Type where
  | created (p : Str) (content : Str)
  | alreadyExists (p : Str)
deriving DecidableEq

/-- Embeds `mochaPlugin.createTest` (src/index.js lines 161-202) on the parts
the host does not own: the target path is derived from the function name; if a
file already exists at that path the operation logs the existing path and
returns without writing; otherwise the template is rendered with the three
substitution values and the rendered content is written to the target path.
The rendering engine (`ejs.render` with the already-loaded template string) is
a parameter `render`. -/
def createTest (render : Str → TemplateContext → Str) (fsys : List (Str × Str))
    (templateString : Str) (funcName : Str) (func : Func) :
    List (Str × Str) × CreateResult :=
  let testFilePath := getTestFilePath funcName
  match lookupStr fsys testFilePath with
  | some _ => (fsys, .alreadyExists testFilePath)
  | none =>
    let content := render templateString (templateContextOf funcName func.handler)
    ((testFilePath, content) :: fsys, .created testFilePath content)

/-- Messages sent to the host logging sink during a test run. -/
inductive LogMsg : Type where
  | warnCouldNotFind (funcName : Str)
  | noTestsToRun
deriving DecidableEq

/-- Embeds `mochaPlugin.getFunctions` (src/index.js lines 206-230): an empty
request resolves to all declared functions; otherwise each requested name is
looked up among the declarations, found ones are collected in order, and each
unknown one produces a logged warning and is skipped. -/
def getFunctions (allFuncs : List (Str × Func)) (funcNames : List Str) :
    List (Str × Func) × List LogMsg :=
  if funcNames.isEmpty then (allFuncs, [])
  else
    funcNames.foldl
      (fun acc funcName =>
        match lookupStr allFuncs funcName with
        | some func => (insertStr acc.1 funcName func, acc.2)
        | none => (acc.1, acc.2 ++ [LogMsg.warnCouldNotFind funcName]))
      ([], [])

/-- A parsed reporter option value: a bare token sets a boolean flag, a
`key=value` token sets a string value. -/
inductive OptVal : Type where
  | bool (b : Bool)
  | str (s : Str)
deriving DecidableEq

/-- The body of the `forEach` over reporter-option tokens in `runTests`
(src/index.js lines 124-133): split the token on `=`; a token splitting into
more than two parts (or, vacuously, into none — JavaScript `split` never
returns an empty array) throws `invalid reporter option`; two parts set a
string value; otherwise the token sets a boolean `true` flag. -/
def parseReporterOptionsStep (acc : List (Str × OptVal)) (opt : Str) :
    Except Str (List (Str × OptVal)) :=
  let L := jsSplit opt '='
  if 2 < L.length ∨ L.length = 0 then Except.error opt
  else if L.length = 2 then
    Except.ok (insertStr acc (L.headD []) (OptVal.str (L.getD 1 [])))
  else Except.ok (insertStr acc (L.headD []) (OptVal.bool true))

/-- Embeds the reporter-option parsing of `runTests` (src/index.js lines
124-133): split the option string on commas and fold the token handler over
the tokens; a thrown error aborts the remaining tokens. -/
def parseReporterOptions (s : Str) : Except Str (List (Str × OptVal)) :=
  (jsSplit s ',').foldlM parseReporterOptionsStep []

/-- How a `runTests` invocation ends, as far as the plugin is concerned:
either it logs and stops before starting Mocha, or it throws, or it calls
`mocha.run` on the registered files with the configured reporter. -/
inductive RunOutcome : Type where
  | noTests
  | crashed
  | reporterOptionError (opt : Str)
  | ran (files : List Str) (env : Env) (reporterConfig : Option (Str × List (Str × OptVal)))
deriving DecidableEq

/-- Embeds `mochaPlugin.runTests` (src/index.js lines 86-159) after the host
configuration has loaded: resolve the requested names (`getFunctions`), keep
those with a discoverable test file (`utils.getTestFiles`); if none remain,
log `No tests to run` and stop; otherwise, for each function in order, apply
`setEnvVars` and register its test file; then, if a reporter was requested,
parse the reporter options (a malformed token throws before `mocha.run`);
finally start Mocha on the registered files. -/
def runTests (allFuncs : List (Str × Func)) (fsys : List (Str × Str))
    (environment : Option ServerlessEnv) (env0 : Env) (funcNames : List Str)
    (stage region : Option Str) (reporter : Option Str)
    (reporterOptionsStr : Option Str) : RunOutcome × List LogMsg :=
  let opts : Options := ⟨stage, region⟩
  let resolved := getFunctions allFuncs funcNames
  let funcs := getTestFiles resolved.1 fsys
  if funcs.isEmpty then (.noTests, resolved.2 ++ [LogMsg.noTestsToRun])
  else
    match funcs.foldlM (fun e p => setEnvVars p.2 opts environment e) env0 with
    | none => (.crashed, resolved.2)
    | some env1 =>
      let files := funcs.map fun p => p.2.testPath
      match reporter with
      | none => (.ran files env1 none, resolved.2)
      | some rep =>
        match reporterOptionsStr with
        | none => (.ran files env1 (some (rep, [])), resolved.2)
        | some s =>
          match parseReporterOptions s with
          | .error opt => (.reporterOptionError opt, resolved.2)
          | .ok ropts => (.ran files env1 (some (rep, ropts)), resolved.2)

/-- Embeds the `suite` event handler installed on the Mocha runner
(src/index.js lines 143-153): re-derive the owning function name from the
suite's source file path, look it up in the test-file map built during
registration, and, when found, re-apply that function's environment scope via
`setEnvVars`; otherwise leave the environment untouched. -/
def suiteHandler (testFileMap : List (Str × FuncT)) (opts : Options)
    (environment : Option ServerlessEnv) (suiteFile : Str) (env : Env) :
    Option Env :=
  match lookupStr testFileMap (funcNameFromPath suiteFile) with
  | some func => setEnvVars func opts environment env
  | none => some env

/-- A minimal process model for exit handling: the handlers registered with
`process.on` for the exit event, each of which may itself call
`process.exit(code)` (returning `some code`) and thereby replace the exit
status. -/
structure Proc : Type where
  exitHandlers : List (Nat → Option Nat)

/-- A process with no exit handlers registered. -/
def procInit : Proc := ⟨[]⟩

/-- `process.on` registering one more exit handler. -/
def procOn (p : Proc) (h : Nat → Option Nat) : Proc :=
  ⟨p.exitHandlers ++ [h]⟩

/-- The status the process terminates with: the natural exit code, replaced by
whatever exit code the registered handlers force, in registration order. -/
def procExitCode (p : Proc) (code : Nat) : Nat :=
  p.exitHandlers.foldl (fun c h => (h c).getD c) code

/-- Embeds the `mocha.run` completion callback (src/index.js lines 138-142):
`process.on('exit', () => process.exit(failures))` registers an exit handler
that forces the exit status to the failure count reported by Mocha. -/
def mochaRunComplete (p : Proc) (failures : Nat) : Proc :=
  procOn p fun _ => some failures

deriving instance DecidableEq for Except

/-- Sample function name used by concrete witnesses. -/
def sampleName : Str := "hello".toList

/-- Sample handler string `handler.hello`. -/
def sampleHandler : Str := "handler.hello".toList

/-- Sample function declaration. -/
def sampleFunc : Func := ⟨sampleHandler⟩

/-- Sample declaration annotated with its discovered test file path. -/
def sampleFuncT : FuncT := ⟨sampleHandler, getTestFilePath sampleName⟩

/-- Sample region scope binding key `K`. -/
def sampleRegionEnv : RegionEnv := ⟨[("K".toList, "vRegion".toList)]⟩

/-- Sample stage scope binding key `K` and holding one region. -/
def sampleStageEnv : StageEnv :=
  ⟨[("K".toList, "vStage".toList)], [("us-east-1".toList, sampleRegionEnv)]⟩

/-- Sample environment hierarchy binding key `K` globally and holding one
stage. -/
def sampleServerlessEnv : ServerlessEnv :=
  ⟨[("K".toList, "vGlobal".toList)], [("dev".toList, sampleStageEnv)]⟩

/-- Sample stage and region options matching the sample hierarchy. -/
def sampleOptions : Options := ⟨some ("dev".toList), some ("us-east-1".toList)⟩

/-- Sample rendering engine: concatenates the substitution values, so the
rendered content exhibits them. -/
def sampleRender : Str → TemplateContext → Str :=
  fun _ c => c.functionName ++ c.functionPath ++ c.handlerName.getD []

/-- JavaScript `split` never returns an empty array. -/
theorem jsSplit_ne_nil (l : Str) (sep : Char) : jsSplit l sep ≠ [] := by
  cases l with
  | nil => simp [jsSplit]
  | cons c rest => by_cases h : c = sep <;> simp [jsSplit, h]

/-- Splitting a string that does not contain the separator yields the string
as the single chunk. -/
theorem jsSplit_no_sep (l : Str) (sep : Char) (h : sep ∉ l) : jsSplit l sep = [l] := by
  induction l with
  | nil => rfl
  | cons c rest ih =>
    have hc : ¬c = sep := fun hcs => h (hcs ▸ List.mem_cons_self c rest)
    have hr : sep ∉ rest := fun hm => h (List.mem_cons_of_mem c hm)
    simp [jsSplit, hc, ih hr]

/-- Splitting past a first separator occurrence: the separator-free prefix
becomes the first chunk and the rest is split recursively. -/
theorem jsSplit_append_sep (l1 l2 : Str) (sep : Char) (h : sep ∉ l1) :
    jsSplit (l1 ++ sep :: l2) sep = l1 :: jsSplit l2 sep := by
  induction l1 with
  | nil => simp [jsSplit]
  | cons c rest ih =>
    have hc : ¬c = sep := fun hcs => h (hcs ▸ List.mem_cons_self c rest)
    have hr : sep ∉ rest := fun hm => h (List.mem_cons_of_mem c hm)
    simp [jsSplit, hc, ih hr]

/-- First-match lookup distributes over append, preferring the left list. -/
theorem lookupStr_append {α : Type} (l1 l2 : List (Str × α)) (k : Str) :
    lookupStr (l1 ++ l2) k = oor (lookupStr l1 k) (lookupStr l2 k) := by
  induction l1 with
  | nil => simp [lookupStr, oor]
  | cons p rest ih =>
    by_cases h : p.1 = k <;> simp [lookupStr, h, ih, oor]

/-- The option alternative is associative. -/
theorem oor_assoc {α : Type} (a b c : Option α) :
    oor (oor a b) c = oor a (oor b c) := by
  cases a <;> simp [oor]

/-- Reading the environment after flattening a mapping: the last write of the
key in the mapping wins, falling back to the previous environment. -/
theorem getVar_setEnv (env : Env) (vars : List (Str × Str)) (k : Str) :
    getVar (setEnv env vars) k = oor (lastLookup vars k) (getVar env k) := by
  induction vars generalizing env with
  | nil => simp [setEnv, lastLookup, lookupStr, oor]
  | cons v vs ih =>
    have h1 : setEnv env (v :: vs) = setEnv (v :: env) vs := rfl
    have h2 : lastLookup (v :: vs) k = oor (lastLookup vs k) (lookupStr [v] k) := by
      simp [lastLookup, lookupStr_append]
    rw [h1, ih, h2, oor_assoc]
    congr 1
    by_cases h : v.1 = k <;> simp [getVar, lookupStr, h, oor]

/-- Recovering the function name from the conventional test file path inverts
the path builder, provided the function name contains no separator. -/
theorem funcNameFromPath_getTestFilePath (n : Str) (h : ('/' : Char) ∉ n) :
    funcNameFromPath (getTestFilePath n) = n := by
  have hTest : ('/' : Char) ∉ "test".toList := by decide
  have hExt : ('/' : Char) ∉ ".js".toList := by decide
  have hns : ('/' : Char) ∉ n ++ ".js".toList := by
    intro hc
    rcases List.mem_append.mp hc with h1 | h2
    · exact h h1
    · exact hExt h2
  unfold funcNameFromPath getTestFilePath
  rw [jsSplit_append_sep _ _ _ hTest, jsSplit_no_sep _ _ hns]
  have hlast : (["test".toList, n ++ ".js".toList] : List Str).getLastD [] = n ++ ".js".toList := by
    simp [List.getLastD]
  rw [hlast]
  unfold stripJsExt
  have hlen : (n ++ ".js".toList).length - 3 = n.length := by
    simp
  rw [hlen]
  have hdrop : (n ++ ".js".toList).drop n.length = ".js".toList := by
    simp
  have htake : (n ++ ".js".toList).take n.length = n := by
    simp
  rw [hdrop, if_pos rfl, htake]

/-- A token without a `=` separator sets a boolean `true` flag under the whole
token as key. -/
theorem parseReporterOptionsStep_no_eq (acc : List (Str × OptVal)) (tok : Str)
    (h : ('=' : Char) ∉ tok) :
    parseReporterOptionsStep acc tok = Except.ok (insertStr acc tok (OptVal.bool true)) := by
  unfold parseReporterOptionsStep
  rw [jsSplit_no_sep _ _ h]
  simp

/-- A token with exactly one `=` sets the part after it as a string value
under the part before it as key. -/
theorem parseReporterOptionsStep_one_eq (acc : List (Str × OptVal)) (k v : Str)
    (hk : ('=' : Char) ∉ k) (hv : ('=' : Char) ∉ v) :
    parseReporterOptionsStep acc (k ++ '=' :: v)
      = Except.ok (insertStr acc k (OptVal.str v)) := by
  unfold parseReporterOptionsStep
  rw [jsSplit_append_sep _ _ _ hk, jsSplit_no_sep _ _ hv]
  simp

/-- A token splitting on `=` into at most two parts is accepted by the token
handler. -/
theorem parseReporterOptionsStep_ok (acc : List (Str × OptVal)) (tok : Str)
    (h : ¬2 < (jsSplit tok '=').length) :
    ∃ acc2, parseReporterOptionsStep acc tok = Except.ok acc2 := by
  have hne : (jsSplit tok '=').length ≠ 0 := by
    intro h0
    exact jsSplit_ne_nil tok '=' (List.length_eq_zero.mp h0)
  unfold parseReporterOptionsStep
  rw [if_neg (by simp [h, hne])]
  by_cases h2 : (jsSplit tok '=').length = 2
  · rw [if_pos h2]
    exact ⟨_, rfl⟩
  · rw [if_neg h2]
    exact ⟨_, rfl⟩

/-- If some token splits on `=` into more than two parts, the fold over the
token handler aborts with an error. -/
theorem foldlM_parse_error :
    ∀ (toks : List Str) (acc : List (Str × OptVal)),
      (∃ tok ∈ toks, 2 < (jsSplit tok '=').length) →
      ∃ t, toks.foldlM parseReporterOptionsStep acc = Except.error t := by
  intro toks
  induction toks with
  | nil =>
    intro acc h
    simp at h
  | cons c rest ih =>
    intro acc h
    by_cases hc : 2 < (jsSplit c '=').length
    · refine ⟨c, ?_⟩
      have hstep : parseReporterOptionsStep acc c = Except.error c := by
        unfold parseReporterOptionsStep
        rw [if_pos (Or.inl hc)]
      simp only [List.foldlM_cons, hstep]
      rfl
    · have hrest : ∃ tok ∈ rest, 2 < (jsSplit tok '=').length := by
        rcases h with ⟨t, ht, h2⟩
        rcases List.mem_cons.mp ht with rfl | hm
        · exact absurd h2 hc
        · exact ⟨t, hm, h2⟩
      rcases parseReporterOptionsStep_ok acc c hc with ⟨acc2, hstep⟩
      rcases ih acc2 hrest with ⟨t, hfold⟩
      refine ⟨t, ?_⟩
      simp only [List.foldlM_cons, hstep]
      exact hfold

/-- Folding the per-name resolution step over a request whose names are all
unknown collects one warning per name, in order, and adds nothing to the
result set. -/
theorem getFunctions_foldl_unknown (allFuncs : List (Str × Func)) :
    ∀ (names : List Str) (acc : List (Str × Func) × List LogMsg),
      (∀ n ∈ names, lookupStr allFuncs n = none) →
      names.foldl
        (fun acc funcName =>
          match lookupStr allFuncs funcName with
          | some func => (insertStr acc.1 funcName func, acc.2)
          | none => (acc.1, acc.2 ++ [LogMsg.warnCouldNotFind funcName]))
        acc
      = (acc.1, acc.2 ++ names.map LogMsg.warnCouldNotFind) := by
  intro names
  induction names with
  | nil =>
    intro acc h
    simp
  | cons n rest ih =>
    intro acc h
    have hn : lookupStr allFuncs n = none := h n (List.mem_cons_self n rest)
    have hrest : ∀ m ∈ rest, lookupStr allFuncs m = none :=
      fun m hm => h m (List.mem_cons_of_mem n hm)
    simp only [List.foldl_cons, hn]
    rw [ih (acc.1, acc.2 ++ [LogMsg.warnCouldNotFind n]) hrest]
    simp

/-- Claim C9: `setEnvVars` is independent of its first argument — for any two
function identifiers, with the same options and the same serverless
environment hierarchy, it performs the identical environment-variable writes;
the applied variables are never function-specific. -/
theorem setEnvVars_ignores_function {α β : Type} (f : α) (g : β) (opts : Options)
    (environment : Option ServerlessEnv) (env : Env) :
    setEnvVars f opts environment env = setEnvVars g opts environment env := rfl

/-- Claim C10: when `options.region` is set but `options.stage` is absent,
`setEnvVars` never writes the region-scoped variables — only the global ones
are flattened into the process-wide environment. -/
theorem setEnvVars_region_without_stage {α : Type} (f : α) (r : Str)
    (e : ServerlessEnv) (env : Env) :
    setEnvVars f ⟨none, some r⟩ (some e) env = some (setEnv env e.vars) := rfl

/-- Claim C5: environment flattening is applied global, then stage, then
region, each write overwriting same-named keys, so a region-scoped value
overrides a same-named stage-scoped value, which overrides a same-named global
value in the resulting process-wide environment. -/
theorem env_flatten_override_order {α : Type} (f : α) (s r : Str)
    (e : ServerlessEnv) (st : StageEnv) (rg : RegionEnv) (env : Env)
    (hst : lookupStr e.stages s = some st)
    (hrg : lookupStr st.regions r = some rg) :
    setEnvVars f ⟨some s, some r⟩ (some e) env
      = some (setEnv (setEnv (setEnv env e.vars) st.vars) rg.vars)
    ∧ (∀ k vr, lastLookup rg.vars k = some vr →
        getVar (setEnv (setEnv (setEnv env e.vars) st.vars) rg.vars) k = some vr)
    ∧ (∀ k vs, lastLookup rg.vars k = none → lastLookup st.vars k = some vs →
        getVar (setEnv (setEnv (setEnv env e.vars) st.vars) rg.vars) k = some vs)
    ∧ (∀ k vg, lastLookup rg.vars k = none → lastLookup st.vars k = none →
        lastLookup e.vars k = some vg →
        getVar (setEnv (setEnv (setEnv env e.vars) st.vars) rg.vars) k = some vg) := by
  refine ⟨by simp [setEnvVars, hst, hrg], ?_, ?_, ?_⟩
  · intro k vr h1
    rw [getVar_setEnv, h1]
    rfl
  · intro k vs h1 h2
    rw [getVar_setEnv, h1, getVar_setEnv, h2]
    rfl
  · intro k vg h1 h2 h3
    rw [getVar_setEnv, h1, getVar_setEnv, h2, getVar_setEnv, h3]
    rfl

/-- Witness for claim C5 at the sample hierarchy: the key `K` is bound at all
three scopes and the region value wins. -/
theorem env_flatten_override_order_witness :
    lookupStr sampleServerlessEnv.stages ("dev".toList) = some sampleStageEnv ∧
    lastLookup sampleRegionEnv.vars ("K".toList) = some ("vRegion".toList) ∧
    getVar (setEnv (setEnv (setEnv [] sampleServerlessEnv.vars) sampleStageEnv.vars)
        sampleRegionEnv.vars) ("K".toList)
      = some ("vRegion".toList) :=
  ⟨by decide, by decide,
    (env_flatten_override_order (0 : Nat) ("dev".toList) ("us-east-1".toList)
        sampleServerlessEnv sampleStageEnv sampleRegionEnv []
        (by decide) (by decide)).2.1 ("K".toList) ("vRegion".toList) (by decide)⟩

/-- Claim C1: before a test suite executes, the `suite` handler re-derives the
owning function name from the suite's source file path and, when the name is
in the test-file map, re-applies that function's environment scope — global,
then stage, then region — into the process-wide environment, so the suite
observes the scoped variables layered over the global ones. -/
theorem suite_env_reapplied (testFileMap : List (Str × FuncT)) (n : Str)
    (func : FuncT) (s r : Str) (e : ServerlessEnv) (st : StageEnv)
    (rg : RegionEnv) (env : Env)
    (hslash : ('/' : Char) ∉ n)
    (hmap : lookupStr testFileMap n = some func)
    (hst : lookupStr e.stages s = some st)
    (hrg : lookupStr st.regions r = some rg) :
    suiteHandler testFileMap ⟨some s, some r⟩ (some e) (getTestFilePath n) env
      = some (setEnv (setEnv (setEnv env e.vars) st.vars) rg.vars)
    ∧ ∀ k, getVar (setEnv (setEnv (setEnv env e.vars) st.vars) rg.vars) k
        = oor (lastLookup rg.vars k)
            (oor (lastLookup st.vars k) (oor (lastLookup e.vars k) (getVar env k))) := by
  constructor
  · unfold suiteHandler
    rw [funcNameFromPath_getTestFilePath n hslash, hmap]
    simp [setEnvVars, hst, hrg]
  · intro k
    rw [getVar_setEnv, getVar_setEnv, getVar_setEnv]

/-- Witness for claim C1 at the sample suite: the suite file of `hello` leads
to the sample function and its scope is re-applied over an empty environment. -/
theorem suite_env_reapplied_witness :
    (('/' : Char) ∉ sampleName) ∧
    suiteHandler [(sampleName, sampleFuncT)] sampleOptions (some sampleServerlessEnv)
        (getTestFilePath sampleName) []
      = some (setEnv (setEnv (setEnv [] sampleServerlessEnv.vars) sampleStageEnv.vars)
          sampleRegionEnv.vars) :=
  ⟨by decide,
   (suite_env_reapplied [(sampleName, sampleFuncT)] sampleName sampleFuncT
      ("dev".toList) ("us-east-1".toList) sampleServerlessEnv sampleStageEnv
      sampleRegionEnv [] (by decide) (by decide) (by decide) (by decide)).1⟩

/-- Claim C3: `createTest` never overwrites an existing target test file —
when the derived test file path already exists, the scaffold aborts without
writing and reports the existing path. -/
theorem createTest_no_overwrite (render : Str → TemplateContext → Str)
    (fsys : List (Str × Str)) (tmpl funcName : Str) (func : Func) (c : Str)
    (h : lookupStr fsys (getTestFilePath funcName) = some c) :
    createTest render fsys tmpl funcName func
      = (fsys, CreateResult.alreadyExists (getTestFilePath funcName)) := by
  simp [createTest, h]

/-- Witness for claim C3: scaffolding `hello` against a file system already
holding its test file leaves the file system unchanged and reports the path. -/
theorem createTest_no_overwrite_witness :
    lookupStr [(getTestFilePath sampleName, ([] : Str))] (getTestFilePath sampleName)
      = some ([] : Str) ∧
    createTest sampleRender [(getTestFilePath sampleName, ([] : Str))] [] sampleName sampleFunc
      = ([(getTestFilePath sampleName, ([] : Str))],
         CreateResult.alreadyExists (getTestFilePath sampleName)) :=
  ⟨by decide,
   createTest_no_overwrite sampleRender [(getTestFilePath sampleName, ([] : Str))]
     [] sampleName sampleFunc [] (by decide)⟩

/-- Claim C6: for a valid function declaration, `createTest` renders the
template with exactly three substitution values — the declared function name,
the handler's module portion with `.js` appended and backslashes normalized to
forward slashes, and the handler's method portion — and writes the rendered
content to the derived test file path. -/
theorem createTest_substitution_values (render : Str → TemplateContext → Str)
    (fsys : List (Str × Str)) (tmpl name m f : Str)
    (hm : ('.' : Char) ∉ m) (hf : ('.' : Char) ∉ f)
    (hnew : lookupStr fsys (getTestFilePath name) = none) :
    createTest render fsys tmpl name ⟨m ++ '.' :: f⟩
      = ((getTestFilePath name,
          render tmpl ⟨name, replaceChar (m ++ ".js".toList) '\\' '/', some f⟩) :: fsys,
         CreateResult.created (getTestFilePath name)
           (render tmpl ⟨name, replaceChar (m ++ ".js".toList) '\\' '/', some f⟩)) := by
  have hctx : templateContextOf name (m ++ '.' :: f)
      = ⟨name, replaceChar (m ++ ".js".toList) '\\' '/', some f⟩ := by
    unfold templateContextOf
    rw [jsSplit_append_sep _ _ _ hm, jsSplit_no_sep _ _ hf]
    rfl
  simp [createTest, hnew, hctx]

/-- Witness for claim C6, end-to-end scenario A: the function `hello` with
handler `handler.hello` renders with module path `handler.js` and exported
method `hello`. -/
theorem createTest_substitution_values_witness :
    (('.' : Char) ∉ ("handler".toList : Str)) ∧
    templateContextOf sampleName sampleHandler
      = ⟨"hello".toList, "handler.js".toList, some ("hello".toList)⟩ ∧
    createTest sampleRender [] [] sampleName ⟨"handler".toList ++ '.' :: "hello".toList⟩
      = ([(getTestFilePath sampleName,
           sampleRender []
             ⟨sampleName, replaceChar ("handler".toList ++ ".js".toList) '\\' '/',
              some ("hello".toList)⟩)],
         CreateResult.created (getTestFilePath sampleName)
           (sampleRender []
             ⟨sampleName, replaceChar ("handler".toList ++ ".js".toList) '\\' '/',
              some ("hello".toList)⟩)) :=
  ⟨by decide, by decide,
   createTest_substitution_values sampleRender [] [] sampleName
     ("handler".toList) ("hello".toList) (by decide) (by decide) (by decide)⟩

/-- Claim C7: reporter option parsing maps a token without `=` to a boolean
`true` flag and a token with exactly one `=` to a string value; in particular
`dot,timeout=5000` parses to `{ dot: true, timeout: "5000" }`. -/
theorem reporter_option_token_semantics :
    (∀ (acc : List (Str × OptVal)) (tok : Str), ('=' : Char) ∉ tok →
      parseReporterOptionsStep acc tok
        = Except.ok (insertStr acc tok (OptVal.bool true)))
    ∧ (∀ (acc : List (Str × OptVal)) (k v : Str),
        ('=' : Char) ∉ k → ('=' : Char) ∉ v →
        parseReporterOptionsStep acc (k ++ '=' :: v)
          = Except.ok (insertStr acc k (OptVal.str v)))
    ∧ parseReporterOptions ("dot,timeout=5000".toList)
        = Except.ok [("dot".toList, OptVal.bool true),
                     ("timeout".toList, OptVal.str ("5000".toList))] :=
  ⟨parseReporterOptionsStep_no_eq, parseReporterOptionsStep_one_eq, by decide⟩

/-- Witness for claim C7: the bare token `dot` and the pair `timeout=5000` on
an empty option record. -/
theorem reporter_option_token_semantics_witness :
    (('=' : Char) ∉ ("dot".toList : Str)) ∧
    parseReporterOptionsStep [] ("dot".toList)
      = Except.ok [("dot".toList, OptVal.bool true)] ∧
    parseReporterOptionsStep [] ("timeout".toList ++ '=' :: "5000".toList)
      = Except.ok [("timeout".toList, OptVal.str ("5000".toList))] :=
  ⟨by decide,
   reporter_option_token_semantics.1 [] ("dot".toList) (by decide),
   reporter_option_token_semantics.2.1 [] ("timeout".toList) ("5000".toList)
     (by decide) (by decide)⟩

/-- Claim C8: when the test run completes, the registered exit handler forces
the process exit status to the failure count reported by Mocha, so the exit
code is 0 exactly when all tests passed; a run with one failure exits with 1
whatever the natural exit code was. -/
theorem exit_status_equals_failures (failures code : Nat) :
    procExitCode (mochaRunComplete procInit failures) code = failures
    ∧ (procExitCode (mochaRunComplete procInit failures) code = 0 ↔ failures = 0)
    ∧ procExitCode (mochaRunComplete procInit 1) code = 1 := by
  simp [procExitCode, mochaRunComplete, procOn, procInit]

/-- Claim C2 counterexample: the reporter-options string `,` consists of two
zero-length tokens, yet parsing does not raise any error — it sets a boolean
flag under the empty key, and the run still reaches the test engine: JavaScript
`split` never returns an empty array, so the `length === 0` guard cannot fire. -/
theorem reporter_options_empty_token_not_fatal :
    (([] : Str) ∈ jsSplit (",".toList) ',')
    ∧ parseReporterOptions (",".toList) = Except.ok [(([] : Str), OptVal.bool true)]
    ∧ (runTests [(sampleName, sampleFunc)] [(getTestFilePath sampleName, ([] : Str))]
        none [] [] none none (some ("spec".toList)) (some (",".toList))).1
      = RunOutcome.ran [getTestFilePath sampleName] []
          (some (("spec".toList), [(([] : Str), OptVal.bool true)])) := by
  refine ⟨by decide, by decide, ?_⟩
  decide

/-- Claim C2 (amended): for every reporter-options string containing a token
with more than one `=`, option parsing raises a fatal configuration error and
the test engine is never started; an empty token, by contrast, raises no error
and merely sets a boolean flag under the empty key. -/
theorem reporter_options_multi_eq_fatal (allFuncs : List (Str × Func))
    (fsys : List (Str × Str)) (environment : Option ServerlessEnv) (env0 : Env)
    (funcNames : List Str) (stage region : Option Str) (rep s : Str)
    (h : ∃ tok ∈ jsSplit s ',', 2 < (jsSplit tok '=').length) :
    (∃ t, parseReporterOptions s = Except.error t)
    ∧ ∀ files env1 cfg,
        (runTests allFuncs fsys environment env0 funcNames stage region
          (some rep) (some s)).1
          ≠ RunOutcome.ran files env1 cfg := by
  have herr := foldlM_parse_error (jsSplit s ',') [] h
  refine ⟨herr, ?_⟩
  intro files env1 cfg
  rcases herr with ⟨t, ht⟩
  have hpe : parseReporterOptions s = Except.error t := ht
  by_cases hEmpty : (getTestFiles (getFunctions allFuncs funcNames).1 fsys).isEmpty
  · simp [runTests, hEmpty]
  · cases hFold : (getTestFiles (getFunctions allFuncs funcNames).1 fsys).foldlM
        (fun e p => setEnvVars p.2 (⟨stage, region⟩ : Options) environment e) env0 with
    | none => simp [runTests, hEmpty, hFold]
    | some env2 => simp [runTests, hEmpty, hFold, hpe]

/-- Witness for the amended claim C2: the option string `a=b=c` has a token
with two `=`; with the sample function and its test file present, the run does
not start the engine. -/
theorem reporter_options_multi_eq_fatal_witness :
    (2 < (jsSplit ("a=b=c".toList) '=').length)
    ∧ (runTests [(sampleName, sampleFunc)] [(getTestFilePath sampleName, ([] : Str))]
        none [] [] none none (some ("spec".toList)) (some ("a=b=c".toList))).1
      ≠ RunOutcome.ran [getTestFilePath sampleName] [] none :=
  ⟨by decide,
   (reporter_options_multi_eq_fatal [(sampleName, sampleFunc)]
      [(getTestFilePath sampleName, ([] : Str))] none [] [] none none
      ("spec".toList) ("a=b=c".toList) (by decide)).2
     [getTestFilePath sampleName] [] none⟩

/-- Claim C4: every requested function name missing from the declarations
produces a non-fatal logged warning and is skipped; when every requested name
is unknown the result set is empty, the run logs that there are no tests to
run, and the test engine is never invoked. -/
theorem runTests_all_unknown_no_tests (allFuncs : List (Str × Func))
    (fsys : List (Str × Str)) (environment : Option ServerlessEnv) (env0 : Env)
    (funcNames : List Str) (stage region reporter ropts : Option Str)
    (hne : funcNames ≠ [])
    (hunk : ∀ n ∈ funcNames, lookupStr allFuncs n = none) :
    runTests allFuncs fsys environment env0 funcNames stage region reporter ropts
      = (RunOutcome.noTests,
         funcNames.map LogMsg.warnCouldNotFind ++ [LogMsg.noTestsToRun])
    ∧ ∀ files env1 cfg,
        (runTests allFuncs fsys environment env0 funcNames stage region reporter
          ropts).1
          ≠ RunOutcome.ran files env1 cfg := by
  have hres : getFunctions allFuncs funcNames
      = ([], funcNames.map LogMsg.warnCouldNotFind) := by
    have hempty : funcNames.isEmpty = false := by
      cases funcNames with
      | nil => exact absurd rfl hne
      | cons a l => rfl
    unfold getFunctions
    rw [hempty]
    simpa using getFunctions_foldl_unknown allFuncs funcNames ([], []) hunk
  have heq : runTests allFuncs fsys environment env0 funcNames stage region
      reporter ropts
      = (RunOutcome.noTests,
         funcNames.map LogMsg.warnCouldNotFind ++ [LogMsg.noTestsToRun]) := by
    simp [runTests, hres, getTestFiles]
  refine ⟨heq, ?_⟩
  intro files env1 cfg
  rw [heq]
  simp

/-- Witness for claim C4: requesting only the unknown function `nope` warns,
reports no tests to run, and never starts the engine. -/
theorem runTests_all_unknown_no_tests_witness :
    (("nope".toList : Str) :: [] ≠ ([] : List Str)) ∧
    lookupStr [(sampleName, sampleFunc)] ("nope".toList) = none ∧
    runTests [(sampleName, sampleFunc)] [] none [] [("nope".toList : Str)]
        none none none none
      = (RunOutcome.noTests,
         [LogMsg.warnCouldNotFind ("nope".toList), LogMsg.noTestsToRun]) :=
  ⟨by decide, by decide,
   (runTests_all_unknown_no_tests [(sampleName, sampleFunc)] [] none []
      [("nope".toList : Str)] none none none none (by decide) (by decide)).1⟩

end MochaPlugin
